import Mathlib

/-!
Verification of the allow-list precompile (`precompile/allow_list.go`).

The development shallowly embeds the Go source: byte strings are lists of
naturals, `common.Hash` and `common.Address` are length-indexed byte lists,
the host `StateDB` is a function from (contract address, storage key) to a
stored hash (the host contract returns the zero value for unset slots), and
each precompile `Run` method is a pure function from its inputs and the
pre-state to the tuple it returns in Go together with the post-state.
-/

namespace AllowList

/-- Go `[]byte`: a byte string, each byte a natural number. -/
abbrev Bytes := List Nat

/-- `common.HashLength` (32 bytes, from go-ethereum). -/
def HashLength : Nat := 32

/-- `common.AddressLength` (20 bytes, from go-ethereum). -/
def AddressLength : Nat := 20

/-- `common.Hash`: a fixed 32-byte value (go-ethereum `[32]byte`). -/
abbrev Hash := { l : Bytes // l.length = HashLength }

/-- `common.Address`: a fixed 20-byte value (go-ethereum `[20]byte`). -/
abbrev Address := { l : Bytes // l.length = AddressLength }

/-- `Hash.Bytes()` from go-ethereum: the underlying byte string. -/
def Hash.Bytes (h : Hash) : Bytes := h.val

/-- Go `type AllowListRole common.Hash`. -/
abbrev AllowListRole := Hash

/-- `common.Hash{}`: the all-zero hash. -/
def zeroHash : Hash := ⟨List.replicate 32 0, rfl⟩

/-- `None = AllowListRole(common.Hash{})`: all zero bytes. -/
def None : AllowListRole := zeroHash

/-- `Deployer = AllowListRole(common.Hash{1})`: the Go composite literal
`common.Hash{1}` sets index 0, so the FIRST byte is 1 and the rest are 0. -/
def Deployer : AllowListRole := ⟨1 :: List.replicate 31 0, rfl⟩

/-- `Admin = AllowListRole(common.Hash{2})`: first byte 2, the rest 0. -/
def Admin : AllowListRole := ⟨2 :: List.replicate 31 0, rfl⟩

/-- `modifyAllowListInputLength = common.AddressLength + common.HashLength`. -/
def modifyAllowListInputLength : Nat := AddressLength + HashLength

/-- Truncation step of go-ethereum `Hash.SetBytes` / `Address.SetBytes`:
when the byte string is longer than the width, keep the trailing bytes. -/
def truncTo (n : Nat) (b : Bytes) : Bytes :=
  if b.length > n then b.drop (b.length - n) else b

/-- Padding step of go-ethereum `SetBytes`: left-pad with zeros to width. -/
def padTo (n : Nat) (b : Bytes) : Bytes :=
  List.replicate (n - b.length) 0 ++ b

theorem truncTo_length_le (n : Nat) (b : Bytes) : (truncTo n b).length ≤ n := by
  unfold truncTo
  split
  · simp only [List.length_drop]
    omega
  · omega

theorem padTo_length (n : Nat) (b : Bytes) (h : b.length ≤ n) :
    (padTo n b).length = n := by
  simp [padTo]
  omega

/-- go-ethereum `common.BytesToHash`: right-align the bytes into 32 bytes,
dropping leading bytes when longer and left-padding with zeros when shorter. -/
def BytesToHash (b : Bytes) : Hash :=
  ⟨padTo 32 (truncTo 32 b), padTo_length 32 _ (truncTo_length_le 32 b)⟩

/-- go-ethereum `common.BytesToAddress`: right-align the bytes into 20 bytes. -/
def BytesToAddress (b : Bytes) : Address :=
  ⟨padTo 20 (truncTo 20 b), padTo_length 20 _ (truncTo_length_le 20 b)⟩

/-- Host state store (spec section 6): a total map from contract address and
storage key to the stored 32-byte value; unset slots read as the zero value,
modelled by a state that maps them to `zeroHash`. -/
abbrev StateDB := Address → Hash → Hash

/-- `StateDB.GetState(contract, key)`. -/
def StateDB.GetState (s : StateDB) (contract : Address) (key : Hash) : Hash :=
  s contract key

/-- `StateDB.SetState(contract, key, value)`: the updated store. -/
def StateDB.SetState (s : StateDB) (contract : Address) (key : Hash)
    (value : Hash) : StateDB :=
  fun c k => if c = contract ∧ k = key then value else s c k

/-- Modelled from the spec: the reserved, well-known contract address
(`ModifyAllowListAddress`) naming the namespace under which all role keys are
stored; it is declared outside `allow_list.go`, and only its fixedness
matters here. -/
def ModifyAllowListAddress : Address := ⟨2 :: List.replicate 19 0, rfl⟩

/-- Modelled from the spec: `CreateAddressKey` (declared outside
`allow_list.go`) derives the per-address storage key from the address alone
by zero-padding the 20 address bytes into the 32-byte key width. -/
def CreateAddressKey (address : Address) : Hash :=
  BytesToHash address.val

/-- Modelled from the spec: `ModifyAllowListGasCost`, the gas-schedule
constant for the modify entry point, declared outside `allow_list.go`; the
properties proved below are relative to it and independent of its value. -/
def ModifyAllowListGasCost : Nat := 20000

/-- Modelled from the spec: `ReadAllowListGasCost`, the gas-schedule constant
for the read entry point, declared outside `allow_list.go`. -/
def ReadAllowListGasCost : Nat := 5000

/-- `AllowListConfig`: activation timestamp and initial admin addresses. -/
structure AllowListConfig where
  BlockTimestamp : Int
  AllowListAdmins : List Address

/-- `AllowListConfig.Timestamp()`. -/
def AllowListConfig.Timestamp (c : AllowListConfig) : Int := c.BlockTimestamp

/-- `AllowListConfig.Configure(state)`: writes role `Admin` for each address
in `AllowListAdmins` under `ModifyAllowListAddress`. -/
def AllowListConfig.Configure (c : AllowListConfig) (state : StateDB) : StateDB :=
  c.AllowListAdmins.foldl
    (fun s adminAddr =>
      StateDB.SetState s ModifyAllowListAddress (CreateAddressKey adminAddr) Admin)
    state

/-- `AllowListRole.Valid()`: true iff the role is `None`, `Deployer` or
`Admin` (closed membership test, Go `switch`). -/
def AllowListRole.Valid (s : AllowListRole) : Bool :=
  if s = None ∨ s = Deployer ∨ s = Admin then true else false

/-- `AllowListRole.IsAdmin()`: true iff the role is `Admin`. -/
def AllowListRole.IsAdmin (s : AllowListRole) : Bool :=
  if s = Admin then true else false

/-- `AllowListRole.CanDeploy()`: true iff the role is `Deployer` or `Admin`. -/
def AllowListRole.CanDeploy (s : AllowListRole) : Bool :=
  if s = Deployer ∨ s = Admin then true else false

/-- `GetAllowListStatus(state, address)`: read the role slot of `address`. -/
def GetAllowListStatus (state : StateDB) (address : Address) : AllowListRole :=
  StateDB.GetState state ModifyAllowListAddress (CreateAddressKey address)

/-- Error taxonomy of the two entry points (spec section 7); each constructor
stands for the corresponding `fmt.Errorf` value produced in the source. -/
inductive PrecompileError where
  | InsufficientGas
  | ReadOnlyViolation
  | Unauthorized
  | MalformedInput
deriving DecidableEq

/-- `PackModifyAllowList(address, status)`: `none` models the Go error return
for an invalid status; otherwise the 52-byte concatenation of the 20 address
bytes and the 32 status bytes. -/
def PackModifyAllowList (address : Address) (status : AllowListRole) :
    Option Bytes :=
  if ¬ status.Valid then none
  else some (address.val ++ status.val)

/-- `UnpackModifyAllowList(input)`: reject a wrong length, split into address
and status hash, reject a status that fails `Valid`. -/
def UnpackModifyAllowList (input : Bytes) :
    Except PrecompileError (Address × Hash) :=
  if input.length ≠ modifyAllowListInputLength then
    .error .MalformedInput
  else
    let address := BytesToAddress (input.take AddressLength)
    let statusHash := BytesToHash (input.drop AddressLength)
    if ¬ (AllowListRole.Valid statusHash) then
      .error .MalformedInput
    else
      .ok (address, statusHash)

/-- `setAllowListStatus(stateDB, address, status)`: write `status` into the
slot keyed by `address` under `ModifyAllowListAddress`. -/
def setAllowListStatus (stateDB : StateDB) (address : Address) (status : Hash) :
    StateDB :=
  StateDB.SetState stateDB ModifyAllowListAddress (CreateAddressKey address) status

/-- Result of a precompile `Run`: the Go return tuple
`(ret, remainingGas, err)` paired with the post-state; `ret = Option.none`
models Go `nil` and `some []` the empty non-nil slice. -/
structure RunResult where
  ret : Option Bytes
  remainingGas : Nat
  err : Option PrecompileError
  state : StateDB

/-- `modifyAllowListPrecompile.Run`: gas precheck, gas deduction, read-only
check, caller authorization, input unpacking, then the single role write. -/
def modifyAllowListRun (state : StateDB) (callerAddr : Address)
    (addr : Address) (input : Bytes) (suppliedGas : Nat) (readOnly : Bool) :
    RunResult :=
  if suppliedGas < ModifyAllowListGasCost then
    ⟨Option.none, 0, some .InsufficientGas, state⟩
  else
    let remainingGas := suppliedGas - ModifyAllowListGasCost
    if readOnly then
      ⟨Option.none, remainingGas, some .ReadOnlyViolation, state⟩
    else
      let callerStatus := GetAllowListStatus state callerAddr
      if ¬ callerStatus.IsAdmin then
        ⟨Option.none, remainingGas, some .Unauthorized, state⟩
      else
        match UnpackModifyAllowList input with
        | .error e => ⟨Option.none, remainingGas, some e, state⟩
        | .ok (address, status) =>
          ⟨some [], remainingGas, Option.none,
            setAllowListStatus state address status⟩

/-- `readAllowListPrecompile.Run`: gas precheck, gas deduction, input length
check, then return the stored role bytes of the decoded address. -/
def readAllowListRun (state : StateDB) (callerAddr : Address)
    (addr : Address) (input : Bytes) (suppliedGas : Nat) (readOnly : Bool) :
    RunResult :=
  if suppliedGas < ReadAllowListGasCost then
    ⟨Option.none, 0, some .InsufficientGas, state⟩
  else
    let remainingGas := suppliedGas - ReadAllowListGasCost
    if input.length ≠ AddressLength then
      ⟨Option.none, remainingGas, some .MalformedInput, state⟩
    else
      let readAddress := BytesToAddress input
      let roleBytes := Hash.Bytes (GetAllowListStatus state readAddress)
      ⟨some roleBytes, remainingGas, Option.none, state⟩

/-- `modifyAllowListPrecompile.RequiredGas`. -/
def modifyAllowListRequiredGas (input : Bytes) : Nat := ModifyAllowListGasCost

/-- `readAllowListPrecompile.RequiredGas`. -/
def readAllowListRequiredGas (input : Bytes) : Nat := ReadAllowListGasCost

/-- A host store with every slot unset: each read returns the zero value. -/
def emptyStateDB : StateDB := fun _ _ => zeroHash

/-- Invariant of spec section 3: every slot in the allow-list namespace holds
one of the three valid role encodings (the zero value of an unset slot is the
`None` encoding, so unset slots satisfy it too). -/
def WellFormedAllowList (state : StateDB) : Prop :=
  ∀ key : Hash,
    AllowListRole.Valid (StateDB.GetState state ModifyAllowListAddress key) = true

/-- A sample caller address used in concrete witnesses. -/
def addrX : Address := ⟨3 :: List.replicate 19 0, rfl⟩

/-- A sample target address used in concrete witnesses. -/
def addrY : Address := ⟨4 :: List.replicate 19 0, rfl⟩

/-- A sample state in which `addrX` has the `Admin` role. -/
def stateXAdmin : StateDB := setAllowListStatus emptyStateDB addrX Admin

/- ### Helper lemmas -/

theorem getState_setState_same (s : StateDB) (c : Address) (k v : Hash) :
    StateDB.GetState (StateDB.SetState s c k v) c k = v := by
  simp [StateDB.GetState, StateDB.SetState]

theorem getState_setState_ne (s : StateDB) (c c2 : Address) (k k2 v : Hash)
    (h : ¬ (c2 = c ∧ k2 = k)) :
    StateDB.GetState (StateDB.SetState s c k v) c2 k2 =
      StateDB.GetState s c2 k2 := by
  simp only [StateDB.GetState, StateDB.SetState, if_neg h]

theorem truncTo_of_le (n : Nat) (b : Bytes) (h : b.length ≤ n) :
    truncTo n b = b := by
  unfold truncTo
  rw [if_neg]
  omega

theorem BytesToHash_val (b : Bytes) (h : b.length = 32) :
    (BytesToHash b).val = b := by
  simp [BytesToHash, truncTo_of_le 32 b (by omega), padTo, h]

theorem BytesToAddress_val (b : Bytes) (h : b.length = 20) :
    (BytesToAddress b).val = b := by
  simp [BytesToAddress, truncTo_of_le 20 b (by omega), padTo, h]

theorem BytesToHash_roundtrip (hsh : Hash) : BytesToHash hsh.val = hsh :=
  Subtype.ext (BytesToHash_val hsh.val hsh.property)

theorem BytesToAddress_roundtrip (a : Address) : BytesToAddress a.val = a :=
  Subtype.ext (BytesToAddress_val a.val a.property)

theorem CreateAddressKey_injective (a b : Address)
    (h : CreateAddressKey a = CreateAddressKey b) : a = b := by
  apply Subtype.ext
  have ha : (CreateAddressKey a).val = padTo 32 a.val := by
    simp [CreateAddressKey, BytesToHash,
      truncTo_of_le 32 a.val (by rw [a.property]; decide)]
  have hb : (CreateAddressKey b).val = padTo 32 b.val := by
    simp [CreateAddressKey, BytesToHash,
      truncTo_of_le 32 b.val (by rw [b.property]; decide)]
  have hv : padTo 32 a.val = padTo 32 b.val := by
    rw [← ha, ← hb, h]
  unfold padTo at hv
  rw [a.property, b.property] at hv
  exact List.append_cancel_left hv

theorem UnpackModifyAllowList_pack (a : Address) (r : AllowListRole)
    (hValid : AllowListRole.Valid r = true) :
    UnpackModifyAllowList (a.val ++ r.val) = .ok (a, r) := by
  have hlen : (a.val ++ r.val).length = modifyAllowListInputLength := by
    simp [modifyAllowListInputLength, a.property, r.property,
      AddressLength, HashLength]
  have htake : (a.val ++ r.val).take AddressLength = a.val :=
    List.take_left' a.property
  have hdrop : (a.val ++ r.val).drop AddressLength = r.val :=
    List.drop_left' a.property
  simp only [UnpackModifyAllowList, hlen, htake, hdrop,
    BytesToHash_roundtrip, BytesToAddress_roundtrip, hValid]
  simp

theorem UnpackModifyAllowList_ok_valid (input : Bytes) (a : Address) (r : Hash)
    (h : UnpackModifyAllowList input = .ok (a, r)) :
    AllowListRole.Valid r = true := by
  unfold UnpackModifyAllowList at h
  split at h
  · exact absurd h (by simp)
  · simp only at h
    split at h
    · exact absurd h (by simp)
    · rename_i hv
      simp only [Except.ok.injEq, Prod.mk.injEq] at h
      rw [← h.2]
      simpa using hv

theorem UnpackModifyAllowList_error (input : Bytes)
    (hBad : input.length ≠ modifyAllowListInputLength ∨
            AllowListRole.Valid (BytesToHash (input.drop AddressLength)) = false) :
    UnpackModifyAllowList input = .error .MalformedInput := by
  unfold UnpackModifyAllowList
  rcases hBad with h | h
  · rw [if_pos h]
  · split
    · rfl
    · simp [h]

theorem readAllowListRun_state_eq (state : StateDB) (callerAddr addr : Address)
    (input : Bytes) (suppliedGas : Nat) (readOnly : Bool) :
    (readAllowListRun state callerAddr addr input suppliedGas readOnly).state =
      state := by
  by_cases h1 : suppliedGas < ReadAllowListGasCost
  · simp [readAllowListRun, h1]
  · by_cases h2 : input.length ≠ AddressLength
    · simp [readAllowListRun, h1, h2]
    · simp [readAllowListRun, h1, h2]

theorem modifyAllowListRun_cases (state : StateDB) (callerAddr addr : Address)
    (input : Bytes) (suppliedGas : Nat) (readOnly : Bool) :
    ((modifyAllowListRun state callerAddr addr input suppliedGas readOnly).state =
        state ∧
     (modifyAllowListRun state callerAddr addr input suppliedGas readOnly).err ≠
        Option.none) ∨
    (∃ (a : Address) (r : Hash),
      UnpackModifyAllowList input = Except.ok (a, r) ∧
      (modifyAllowListRun state callerAddr addr input suppliedGas readOnly).err =
        Option.none ∧
      (modifyAllowListRun state callerAddr addr input suppliedGas readOnly).state =
        setAllowListStatus state a r) := by
  by_cases h1 : suppliedGas < ModifyAllowListGasCost
  · left
    simp [modifyAllowListRun, h1]
  · by_cases h2 : readOnly
    · left
      simp [modifyAllowListRun, h1, h2]
    · by_cases h3 : (GetAllowListStatus state callerAddr).IsAdmin
      · cases hU : UnpackModifyAllowList input with
        | error e =>
          left
          simp [modifyAllowListRun, h1, h2, h3, hU]
        | ok p =>
          obtain ⟨a, r⟩ := p
          right
          exact ⟨a, r, rfl, by simp [modifyAllowListRun, h1, h2, h3, hU],
            by simp [modifyAllowListRun, h1, h2, h3, hU]⟩
      · left
        simp [modifyAllowListRun, h1, h2, h3]

/- ### Claim theorems -/

/-- C1 counterexample: the claim places the role tag in the LAST byte, but
the source literals `common.Hash{1}` and `common.Hash{2}` set the FIRST
byte; the role validity check rejects the claimed last-byte encoding of
`Deployer` and accepts the first-byte one. -/
theorem C1_counterexample :
    Deployer.val ≠ List.replicate 31 0 ++ [1] ∧
    Admin.val ≠ List.replicate 31 0 ++ [2] ∧
    AllowListRole.Valid (BytesToHash (List.replicate 31 0 ++ [1])) = false ∧
    AllowListRole.Valid Deployer = true := by
  decide

/-- C1 (amended): `None` is all zero bytes, `Deployer` is all-zero except
FIRST byte = 1, `Admin` is all-zero except FIRST byte = 2; exactly these
encodings pass the role validity check; every status that Modify Role can
store (an `ok` result of unpacking) passes that check; and Read Role outputs
the stored encoding of the decoded address. -/
theorem C1_role_encodings :
    None.val = List.replicate 32 0 ∧
    Deployer.val = 1 :: List.replicate 31 0 ∧
    Admin.val = 2 :: List.replicate 31 0 ∧
    (∀ s : AllowListRole,
      AllowListRole.Valid s = true ↔ (s = None ∨ s = Deployer ∨ s = Admin)) ∧
    (∀ (input : Bytes) (a : Address) (r : Hash),
      UnpackModifyAllowList input = Except.ok (a, r) →
      AllowListRole.Valid r = true) ∧
    (∀ (state : StateDB) (callerAddr addr : Address) (input : Bytes)
        (suppliedGas : Nat) (readOnly : Bool),
      input.length = AddressLength →
      ReadAllowListGasCost ≤ suppliedGas →
      (readAllowListRun state callerAddr addr input suppliedGas readOnly).ret =
        some (GetAllowListStatus state (BytesToAddress input)).val) := by
  refine ⟨rfl, rfl, rfl, ?_, ?_, ?_⟩
  · intro s
    unfold AllowListRole.Valid
    split
    · rename_i h
      simp [h]
    · rename_i h
      simp [h]
  · intro input a r h
    exact UnpackModifyAllowList_ok_valid input a r h
  · intro state callerAddr addr input suppliedGas readOnly hLen hGas
    have hA : ¬ suppliedGas < ReadAllowListGasCost := by omega
    simp [readAllowListRun, if_neg hA, hLen, Hash.Bytes]

/-- C1 witness: the amended theorem applied at concrete inputs. -/
theorem C1_role_encodings_witness :
    AllowListRole.Valid Deployer = true ∧
    (readAllowListRun stateXAdmin addrY addrY addrX.val 5000 false).ret =
      some (GetAllowListStatus stateXAdmin (BytesToAddress addrX.val)).val := by
  constructor
  · exact C1_role_encodings.2.2.2.2.1 (addrY.val ++ Deployer.val) addrY Deployer
      (UnpackModifyAllowList_pack addrY Deployer (by decide))
  · exact C1_role_encodings.2.2.2.2.2 stateXAdmin addrY addrY addrX.val 5000 false
      (by decide) (by decide)

/-- C2: an Admin caller with read-only unset, sufficient gas and the
well-formed 52-byte encoding of a target address and a valid role gets back
empty output, `suppliedGas - ModifyAllowListGasCost` remaining gas and no
error; the post-state is exactly the single role write, after which the
target's stored role is the requested one. -/
theorem C2_modify_success (state : StateDB) (callerAddr addr target : Address)
    (role : AllowListRole) (suppliedGas : Nat)
    (hAdmin : GetAllowListStatus state callerAddr = Admin)
    (hValid : AllowListRole.Valid role = true)
    (hGas : ModifyAllowListGasCost ≤ suppliedGas) :
    modifyAllowListRun state callerAddr addr (target.val ++ role.val)
        suppliedGas false =
      ⟨some [], suppliedGas - ModifyAllowListGasCost, Option.none,
        setAllowListStatus state target role⟩ ∧
    GetAllowListStatus (setAllowListStatus state target role) target = role := by
  have hA : ¬ suppliedGas < ModifyAllowListGasCost := by omega
  have hU := UnpackModifyAllowList_pack target role hValid
  constructor
  · simp [modifyAllowListRun, if_neg hA, hAdmin, hU, AllowListRole.IsAdmin]
  · simpa [GetAllowListStatus, setAllowListStatus] using
      getState_setState_same state ModifyAllowListAddress
        (CreateAddressKey target) role

/-- C2 witness: `addrX` (an admin in `stateXAdmin`) grants `Deployer` to
`addrY`. -/
theorem C2_modify_success_witness :
    modifyAllowListRun stateXAdmin addrX addrY (addrY.val ++ Deployer.val)
        20000 false =
      ⟨some [], 20000 - ModifyAllowListGasCost, Option.none,
        setAllowListStatus stateXAdmin addrY Deployer⟩ ∧
    GetAllowListStatus (setAllowListStatus stateXAdmin addrY Deployer) addrY =
      Deployer :=
  C2_modify_success stateXAdmin addrX addrY addrY Deployer 20000
    (by decide) (by decide) (by decide)

/-- C3: a caller whose stored role is `None` or `Deployer`, with read-only
unset and sufficient gas, always gets `Unauthorized` with remaining gas
`suppliedGas - ModifyAllowListGasCost` and an unchanged state, for every
input byte string (the authorization check precedes decoding). -/
theorem C3_unauthorized (state : StateDB) (callerAddr addr : Address)
    (input : Bytes) (suppliedGas : Nat)
    (hRole : GetAllowListStatus state callerAddr = None ∨
             GetAllowListStatus state callerAddr = Deployer)
    (hGas : ModifyAllowListGasCost ≤ suppliedGas) :
    modifyAllowListRun state callerAddr addr input suppliedGas false =
      ⟨Option.none, suppliedGas - ModifyAllowListGasCost,
        some PrecompileError.Unauthorized, state⟩ := by
  have hA : ¬ suppliedGas < ModifyAllowListGasCost := by omega
  have hNotAdmin : (GetAllowListStatus state callerAddr).IsAdmin = false := by
    rcases hRole with h | h <;> rw [h] <;> decide
  simp [modifyAllowListRun, if_neg hA, hNotAdmin]

/-- C3 witness: a caller with role `None` and malformed input `[]`. -/
theorem C3_unauthorized_witness :
    modifyAllowListRun emptyStateDB addrY addrX [] 20000 false =
      ⟨Option.none, 20000 - ModifyAllowListGasCost,
        some PrecompileError.Unauthorized, emptyStateDB⟩ :=
  C3_unauthorized emptyStateDB addrY addrX [] 20000 (by decide) (by decide)

/-- C4: with the read-only flag set and sufficient gas, Modify Role fails
with `ReadOnlyViolation`, remaining gas `suppliedGas - ModifyAllowListGasCost`
and an unchanged state, for every caller and every input (the read-only check
precedes authorization and decoding). -/
theorem C4_read_only (state : StateDB) (callerAddr addr : Address)
    (input : Bytes) (suppliedGas : Nat)
    (hGas : ModifyAllowListGasCost ≤ suppliedGas) :
    modifyAllowListRun state callerAddr addr input suppliedGas true =
      ⟨Option.none, suppliedGas - ModifyAllowListGasCost,
        some PrecompileError.ReadOnlyViolation, state⟩ := by
  have hA : ¬ suppliedGas < ModifyAllowListGasCost := by omega
  simp [modifyAllowListRun, if_neg hA]

/-- C4 witness: even the admin caller is rejected in read-only mode. -/
theorem C4_read_only_witness :
    modifyAllowListRun stateXAdmin addrX addrY (addrY.val ++ Deployer.val)
        20000 true =
      ⟨Option.none, 20000 - ModifyAllowListGasCost,
        some PrecompileError.ReadOnlyViolation, stateXAdmin⟩ :=
  C4_read_only stateXAdmin addrX addrY (addrY.val ++ Deployer.val) 20000
    (by decide)

/-- C5 counterexample: `Deployer.val` has its tag in the first byte, so it is
outside the claim's set of valid encodings (a value in 0..2 in the LAST byte,
zero elsewhere); by the claim Modify Role should then fail with
`MalformedInput`, yet the run with an admin caller succeeds (no error). -/
theorem C5_counterexample :
    Deployer.val ≠ List.replicate 31 0 ++ [0] ∧
    Deployer.val ≠ List.replicate 31 0 ++ [1] ∧
    Deployer.val ≠ List.replicate 31 0 ++ [2] ∧
    (modifyAllowListRun stateXAdmin addrX addrY (addrY.val ++ Deployer.val)
        20000 false).err = Option.none := by
  decide

/-- C5 (amended): under an Admin caller, read-only unset and sufficient gas,
Modify Role with input of wrong length, or whose role bytes are not one of
the three encodings the validity check accepts (tag in the FIRST byte), fails
with `MalformedInput` and no state change; Read Role with input of wrong
length fails likewise; in each case remaining gas is the supplied gas minus
the entry point's cost. -/
theorem C5_malformed_input (state : StateDB) (callerAddr addr : Address)
    (minput rinput : Bytes) (mgas rgas : Nat)
    (hAdmin : GetAllowListStatus state callerAddr = Admin)
    (hGasM : ModifyAllowListGasCost ≤ mgas)
    (hBad : minput.length ≠ modifyAllowListInputLength ∨
            AllowListRole.Valid (BytesToHash (minput.drop AddressLength)) = false)
    (hGasR : ReadAllowListGasCost ≤ rgas)
    (hRLen : rinput.length ≠ AddressLength) :
    modifyAllowListRun state callerAddr addr minput mgas false =
      ⟨Option.none, mgas - ModifyAllowListGasCost,
        some PrecompileError.MalformedInput, state⟩ ∧
    readAllowListRun state callerAddr addr rinput rgas false =
      ⟨Option.none, rgas - ReadAllowListGasCost,
        some PrecompileError.MalformedInput, state⟩ := by
  have hAM : ¬ mgas < ModifyAllowListGasCost := by omega
  have hAR : ¬ rgas < ReadAllowListGasCost := by omega
  have hU := UnpackModifyAllowList_error minput hBad
  constructor
  · simp [modifyAllowListRun, if_neg hAM, hAdmin, hU, AllowListRole.IsAdmin]
  · simp [readAllowListRun, if_neg hAR, hRLen]

/-- C5 witness: the admin caller sends `[]` to Modify Role and a 3-byte
input to Read Role. -/
theorem C5_malformed_input_witness :
    modifyAllowListRun stateXAdmin addrX addrY [] 20000 false =
      ⟨Option.none, 20000 - ModifyAllowListGasCost,
        some PrecompileError.MalformedInput, stateXAdmin⟩ ∧
    readAllowListRun stateXAdmin addrX addrY [1, 2, 3] 5000 false =
      ⟨Option.none, 5000 - ReadAllowListGasCost,
        some PrecompileError.MalformedInput, stateXAdmin⟩ :=
  C5_malformed_input stateXAdmin addrX addrY [] [1, 2, 3] 20000 5000
    (by decide) (by decide) (Or.inl (by decide)) (by decide) (by decide)

/-- C6: both entry points mutate nothing on any error path, and on the
error-free path of Modify Role the post-state is exactly the single role
write of the unpacked pair; Read Role never mutates at all. -/
theorem C6_no_partial_mutation (state : StateDB) (callerAddr addr : Address)
    (input : Bytes) (suppliedGas : Nat) (readOnly : Bool) :
    ((modifyAllowListRun state callerAddr addr input suppliedGas readOnly).err ≠
        Option.none →
      (modifyAllowListRun state callerAddr addr input suppliedGas readOnly).state =
        state) ∧
    ((modifyAllowListRun state callerAddr addr input suppliedGas readOnly).err =
        Option.none →
      ∃ (a : Address) (r : Hash),
        UnpackModifyAllowList input = Except.ok (a, r) ∧
        (modifyAllowListRun state callerAddr addr input suppliedGas readOnly).state =
          setAllowListStatus state a r) ∧
    (readAllowListRun state callerAddr addr input suppliedGas readOnly).state =
      state := by
  refine ⟨?_, ?_, readAllowListRun_state_eq state callerAddr addr input
    suppliedGas readOnly⟩
  · intro hErr
    rcases modifyAllowListRun_cases state callerAddr addr input suppliedGas
        readOnly with ⟨hs, -⟩ | ⟨a, r, -, hNoErr, -⟩
    · exact hs
    · exact absurd hNoErr hErr
  · intro hNoErr
    rcases modifyAllowListRun_cases state callerAddr addr input suppliedGas
        readOnly with ⟨-, hErr⟩ | ⟨a, r, hU, -, hs⟩
    · exact absurd hNoErr hErr
    · exact ⟨a, r, hU, hs⟩

/-- C6 witness: an unauthorized modify attempt and a read both leave the
empty state untouched. -/
theorem C6_no_partial_mutation_witness :
    (modifyAllowListRun emptyStateDB addrX addrY [] 20000 false).state =
      emptyStateDB ∧
    (readAllowListRun emptyStateDB addrX addrY [] 5000 false).state =
      emptyStateDB :=
  ⟨(C6_no_partial_mutation emptyStateDB addrX addrY [] 20000 false).1
      (by decide),
   (C6_no_partial_mutation emptyStateDB addrX addrY [] 5000 false).2.2⟩

/-- C7: each entry point returns zero remaining gas (with an error) when the
supplied gas is below its cost, and supplied gas minus that cost on every
other path, success or failure. -/
theorem C7_gas_accounting (state : StateDB) (callerAddr addr : Address)
    (input : Bytes) (suppliedGas : Nat) (readOnly : Bool) :
    (suppliedGas < ModifyAllowListGasCost →
      (modifyAllowListRun state callerAddr addr input suppliedGas readOnly).remainingGas = 0 ∧
      (modifyAllowListRun state callerAddr addr input suppliedGas readOnly).err =
        some PrecompileError.InsufficientGas) ∧
    (ModifyAllowListGasCost ≤ suppliedGas →
      (modifyAllowListRun state callerAddr addr input suppliedGas readOnly).remainingGas =
        suppliedGas - ModifyAllowListGasCost) ∧
    (suppliedGas < ReadAllowListGasCost →
      (readAllowListRun state callerAddr addr input suppliedGas readOnly).remainingGas = 0 ∧
      (readAllowListRun state callerAddr addr input suppliedGas readOnly).err =
        some PrecompileError.InsufficientGas) ∧
    (ReadAllowListGasCost ≤ suppliedGas →
      (readAllowListRun state callerAddr addr input suppliedGas readOnly).remainingGas =
        suppliedGas - ReadAllowListGasCost) := by
  refine ⟨?_, ?_, ?_, ?_⟩
  · intro h
    simp [modifyAllowListRun, h]
  · intro h
    have hA : ¬ suppliedGas < ModifyAllowListGasCost := by omega
    by_cases h2 : readOnly
    · simp [modifyAllowListRun, hA, h2]
    · by_cases h3 : (GetAllowListStatus state callerAddr).IsAdmin
      · cases hU : UnpackModifyAllowList input with
        | error e => simp [modifyAllowListRun, hA, h2, h3, hU]
        | ok p =>
          obtain ⟨a, r⟩ := p
          simp [modifyAllowListRun, hA, h2, h3, hU]
      · simp [modifyAllowListRun, hA, h2, h3]
  · intro h
    simp [readAllowListRun, h]
  · intro h
    have hA : ¬ suppliedGas < ReadAllowListGasCost := by omega
    by_cases h2 : input.length ≠ AddressLength
    · simp [readAllowListRun, hA, h2]
    · simp [readAllowListRun, hA, h2]

/-- C7 witness: gas 5 is below both costs and yields zero remaining gas;
gas 20005 leaves 5 after the modify cost. -/
theorem C7_gas_accounting_witness :
    ((modifyAllowListRun emptyStateDB addrX addrY [] 5 false).remainingGas = 0 ∧
     (modifyAllowListRun emptyStateDB addrX addrY [] 5 false).err =
       some PrecompileError.InsufficientGas) ∧
    (modifyAllowListRun emptyStateDB addrX addrY [] 20005 false).remainingGas =
      20005 - ModifyAllowListGasCost :=
  ⟨(C7_gas_accounting emptyStateDB addrX addrY [] 5 false).1 (by decide),
   (C7_gas_accounting emptyStateDB addrX addrY [] 20005 false).2.1 (by decide)⟩

/-- C8: on any 20-byte input with sufficient gas, Read Role succeeds for any
read-only flag, returning exactly the stored 32-byte role encoding of the
decoded address with the state untouched; an address never assigned (the
all-unset store) reads as the `None` encoding. -/
theorem C8_read_success (state : StateDB) (callerAddr addr : Address)
    (input : Bytes) (suppliedGas : Nat) (readOnly : Bool)
    (hLen : input.length = AddressLength)
    (hGas : ReadAllowListGasCost ≤ suppliedGas) :
    readAllowListRun state callerAddr addr input suppliedGas readOnly =
      ⟨some (GetAllowListStatus state (BytesToAddress input)).val,
        suppliedGas - ReadAllowListGasCost, Option.none, state⟩ ∧
    (GetAllowListStatus state (BytesToAddress input)).val.length = HashLength ∧
    (∀ a : Address, GetAllowListStatus emptyStateDB a = None) := by
  have hA : ¬ suppliedGas < ReadAllowListGasCost := by omega
  refine ⟨?_, (GetAllowListStatus state (BytesToAddress input)).property,
    fun a => rfl⟩
  simp [readAllowListRun, if_neg hA, hLen, Hash.Bytes]

/-- C8 witness: reading `addrX` in `stateXAdmin` (read-only set). -/
theorem C8_read_success_witness :
    readAllowListRun stateXAdmin addrY addrY addrX.val 5000 true =
      ⟨some (GetAllowListStatus stateXAdmin (BytesToAddress addrX.val)).val,
        5000 - ReadAllowListGasCost, Option.none, stateXAdmin⟩ ∧
    (GetAllowListStatus stateXAdmin (BytesToAddress addrX.val)).val.length =
      HashLength ∧
    (∀ a : Address, GetAllowListStatus emptyStateDB a = None) :=
  C8_read_success stateXAdmin addrY addrY addrX.val 5000 true
    (by decide) (by decide)

theorem wellFormed_setState (s : StateDB) (k v : Hash)
    (hv : AllowListRole.Valid v = true) (hWF : WellFormedAllowList s) :
    WellFormedAllowList (StateDB.SetState s ModifyAllowListAddress k v) := by
  intro key
  simp only [StateDB.GetState, StateDB.SetState]
  split
  · exact hv
  · exact hWF key

theorem wellFormed_configure_fold (l : List Address) (s : StateDB)
    (hWF : WellFormedAllowList s) :
    WellFormedAllowList
      (l.foldl
        (fun s adminAddr =>
          StateDB.SetState s ModifyAllowListAddress (CreateAddressKey adminAddr)
            Admin)
        s) := by
  induction l generalizing s with
  | nil => exact hWF
  | cons hd tl ih =>
    exact ih _ (wellFormed_setState s (CreateAddressKey hd) Admin (by decide) hWF)

/-- C9: starting from a store whose allow-list slots all hold valid role
encodings (unset slots read as zero, the `None` encoding), `Configure` and
both entry points preserve that invariant: `Configure` writes only `Admin`,
Modify Role writes only a status that passed the validity check, Read Role
writes nothing. -/
theorem C9_valid_roles_invariant (state : StateDB) (c : AllowListConfig)
    (callerAddr addr : Address) (input : Bytes) (suppliedGas : Nat)
    (readOnly : Bool) (hWF : WellFormedAllowList state) :
    WellFormedAllowList (AllowListConfig.Configure c state) ∧
    WellFormedAllowList
      ((modifyAllowListRun state callerAddr addr input suppliedGas readOnly).state) ∧
    WellFormedAllowList
      ((readAllowListRun state callerAddr addr input suppliedGas readOnly).state) := by
  refine ⟨wellFormed_configure_fold c.AllowListAdmins state hWF, ?_, ?_⟩
  · rcases modifyAllowListRun_cases state callerAddr addr input suppliedGas
        readOnly with ⟨hs, -⟩ | ⟨a, r, hU, -, hs⟩
    · rw [hs]
      exact hWF
    · rw [hs]
      exact wellFormed_setState state (CreateAddressKey a) r
        (UnpackModifyAllowList_ok_valid input a r hU) hWF
  · rw [readAllowListRun_state_eq]
    exact hWF

/-- C9 witness: the invariant instantiated at the all-unset store, a
one-admin config and a successful modify call. -/
theorem C9_valid_roles_invariant_witness :
    WellFormedAllowList
      (AllowListConfig.Configure ⟨0, [addrX]⟩ emptyStateDB) ∧
    WellFormedAllowList
      ((modifyAllowListRun emptyStateDB addrX addrY (addrY.val ++ Deployer.val)
          20000 false).state) ∧
    WellFormedAllowList
      ((readAllowListRun emptyStateDB addrX addrY addrY.val 5000 false).state) :=
  C9_valid_roles_invariant emptyStateDB ⟨0, [addrX]⟩ addrX addrY
    (addrY.val ++ Deployer.val) 20000 false (fun key => rfl)

/-- C10: writing a valid role for an address and reading that address back
returns the written role, and the write leaves the stored role of every
other address unchanged (the storage key is derived injectively from the
address alone). -/
theorem C10_set_get_roundtrip (state : StateDB) (a b : Address)
    (r : AllowListRole) (hValid : AllowListRole.Valid r = true) (hNe : b ≠ a) :
    GetAllowListStatus (setAllowListStatus state a r) a = r ∧
    GetAllowListStatus (setAllowListStatus state a r) b =
      GetAllowListStatus state b := by
  constructor
  · simpa [GetAllowListStatus, setAllowListStatus] using
      getState_setState_same state ModifyAllowListAddress (CreateAddressKey a) r
  · unfold GetAllowListStatus setAllowListStatus
    apply getState_setState_ne
    rintro ⟨-, hkey⟩
    exact hNe (CreateAddressKey_injective b a hkey)

/-- C10 witness: granting `Deployer` to `addrY` round-trips and leaves
`addrX`'s role alone. -/
theorem C10_set_get_roundtrip_witness :
    GetAllowListStatus (setAllowListStatus stateXAdmin addrY Deployer) addrY =
      Deployer ∧
    GetAllowListStatus (setAllowListStatus stateXAdmin addrY Deployer) addrX =
      GetAllowListStatus stateXAdmin addrX :=
  C10_set_get_roundtrip stateXAdmin addrY addrX Deployer (by decide) (by decide)

end AllowList
